import Mathlib

/-!
Verification of the MariaDB backend wire-protocol engine
(`src/server/modules/protocol/MariaDB/mariadb_backend.cc`).

Bytes are modelled as `Nat` values (`uint8_t` reads always yield values
below 256); byte streams are `List Nat`.  The C iterator pattern
`*it++` is modelled by explicit `take`/`drop` on lists.  The chained
little-endian accumulation `x |= (*it++) << 8k` is modelled as
`x + 256^k * b`, which coincides with bitwise-or because the summands
occupy disjoint bit ranges for byte-valued input.
-/

namespace MariaDB

/-- Little-endian value of a byte list: `leUint [b0, b1, ...] = b0 + 256*b1 + ...`. -/
def leUint : List Nat → Nat
  | [] => 0
  | b :: bs => b + 256 * leUint bs

/-- Little-endian byte decomposition: `k` bytes of `n`, least significant first.
Used only to build concrete wire images for the theorems. -/
def leBytes : Nat → Nat → List Nat
  | 0, _ => []
  | k + 1, n => n % 256 :: leBytes k (n / 256)

/-- Read a 16-bit little-endian integer from the head of a byte list
(the `status = *it++; status |= (*it++) << 8` pattern). -/
def readU16 (bs : List Nat) : Nat :=
  bs.headD 0 + 256 * (bs.tail.headD 0)

theorem leBytes_length (k n : Nat) : (leBytes k n).length = k := by
  induction k generalizing n with
  | zero => rfl
  | succ k ih => simp [leBytes, ih]

theorem leUint_leBytes (k n : Nat) (h : n < 256 ^ k) : leUint (leBytes k n) = n := by
  induction k generalizing n with
  | zero =>
    simp [pow_zero] at h
    simp [leBytes, leUint, h]
  | succ k ih =>
    have hdiv : n / 256 < 256 ^ k := by
      rw [Nat.div_lt_iff_lt_mul (by norm_num)]
      calc n < 256 ^ (k + 1) := h
        _ = 256 ^ k * 256 := by ring
    simp only [leBytes, leUint, ih _ hdiv]
    omega

/-! ### Length-encoded integer and string codecs

Embeddings of the anonymous-namespace helpers `skip_encoded_int`,
`get_encoded_int`, `get_encoded_str` and `skip_encoded_str` of
`mariadb_backend.cc`.  Each consumes from the front of a byte list and
returns the remainder (the advanced iterator). -/

/-- Embeds `skip_encoded_int` (mariadb_backend.cc lines 48-68): advance the
iterator over one length-encoded integer without materializing it. -/
def skip_encoded_int (bs : List Nat) : List Nat :=
  match bs with
  | [] => []
  | b :: rest =>
    if b = 0xfc then rest.drop 2
    else if b = 0xfd then rest.drop 3
    else if b = 0xfe then rest.drop 8
    else rest

/-- Embeds `get_encoded_int` (mariadb_backend.cc lines 70-103): first byte
selects the width, further bytes accumulate little-endian.  Returns the
value and the remaining bytes. -/
def get_encoded_int (bs : List Nat) : Nat × List Nat :=
  match bs with
  | [] => (0, [])
  | b :: rest =>
    if b = 0xfc then (leUint (rest.take 2), rest.drop 2)
    else if b = 0xfd then (leUint (rest.take 3), rest.drop 3)
    else if b = 0xfe then (leUint (rest.take 8), rest.drop 8)
    else (b, rest)

/-- Embeds `get_encoded_str`: a length-encoded integer followed by that many
bytes of string content. -/
def get_encoded_str (bs : List Nat) : List Nat × List Nat :=
  let r := get_encoded_int bs
  (r.2.take r.1, r.2.drop r.1)

/-- Embeds `skip_encoded_str`: advance over a length-encoded string. -/
def skip_encoded_str (bs : List Nat) : List Nat :=
  let r := get_encoded_int bs
  r.2.drop r.1

theorem skip_encoded_int_eq (bs : List Nat) :
    skip_encoded_int bs = (get_encoded_int bs).2 := by
  match bs with
  | [] => rfl
  | b :: rest =>
    simp only [skip_encoded_int, get_encoded_int]
    split_ifs <;> rfl

theorem get_encoded_int_drop (bs : List Nat) :
    (get_encoded_int bs).2.length ≤ bs.length := by
  match bs with
  | [] => simp [get_encoded_int]
  | b :: rest =>
    simp only [get_encoded_int]
    split
    · simp; omega
    split
    · simp; omega
    split
    · simp; omega
    · simp

theorem skip_encoded_str_length (bs : List Nat) :
    (skip_encoded_str bs).length ≤ bs.length := by
  have h := get_encoded_int_drop bs
  simp only [skip_encoded_str]
  simp only [List.length_drop]
  omega

/-! ### Wire-image builders

These encoders come from the spec's wire-format section (§4.2, §6); they
are used to construct concrete inputs for the theorems.  `put_lenenc n`
is the MySQL length-encoded-integer encoding of `n`. -/

/-- MySQL length-encoded integer encoder (spec §4.2). -/
def put_lenenc (n : Nat) : List Nat :=
  if n < 0xfb then [n]
  else if n < 256 ^ 2 then 0xfc :: leBytes 2 n
  else if n < 256 ^ 3 then 0xfd :: leBytes 3 n
  else 0xfe :: leBytes 8 n

/-- MySQL length-encoded string encoder (spec §4.2). -/
def put_lenenc_str (s : List Nat) : List Nat :=
  put_lenenc s.length ++ s

theorem take_append_exact (l r : List Nat) (k : Nat) (h : l.length = k) :
    (l ++ r).take k = l := by
  subst h; exact List.take_left l r

theorem drop_append_exact (l r : List Nat) (k : Nat) (h : l.length = k) :
    (l ++ r).drop k = r := by
  subst h; exact List.drop_left l r

theorem get_encoded_int_put (n : Nat) (rest : List Nat) (h : n < 256 ^ 8) :
    get_encoded_int (put_lenenc n ++ rest) = (n, rest) := by
  by_cases h1 : n < 0xfb
  · have hne2 : ¬ (n = 0xfc) := by omega
    have hne3 : ¬ (n = 0xfd) := by omega
    have hne4 : ¬ (n = 0xfe) := by omega
    simp [put_lenenc, h1, get_encoded_int, hne2, hne3, hne4]
  by_cases h2 : n < 256 ^ 2
  · simp only [put_lenenc, h1, h2, if_true, if_false, List.cons_append]
    simp only [get_encoded_int, if_true]
    rw [take_append_exact _ _ _ (leBytes_length 2 n),
        drop_append_exact _ _ _ (leBytes_length 2 n), leUint_leBytes 2 n h2]
  by_cases h3 : n < 256 ^ 3
  · simp only [put_lenenc, h1, h2, h3, if_true, if_false, List.cons_append]
    simp only [get_encoded_int, if_true, if_false]
    norm_num
    rw [take_append_exact _ _ _ (leBytes_length 3 n),
        drop_append_exact _ _ _ (leBytes_length 3 n), leUint_leBytes 3 n h3]
    simp
  · simp only [put_lenenc, h1, h2, h3, if_false, List.cons_append]
    simp only [get_encoded_int, if_true, if_false]
    norm_num
    rw [take_append_exact _ _ _ (leBytes_length 8 n),
        drop_append_exact _ _ _ (leBytes_length 8 n), leUint_leBytes 8 n h]
    simp

theorem get_encoded_str_put (s : List Nat) (rest : List Nat) (h : s.length < 256 ^ 8) :
    get_encoded_str (put_lenenc_str s ++ rest) = (s, rest) := by
  simp only [get_encoded_str, put_lenenc_str, List.append_assoc]
  rw [get_encoded_int_put s.length (s ++ rest) h]
  simp [List.take_left, List.drop_left]

theorem skip_encoded_int_put (n : Nat) (rest : List Nat) (h : n < 256 ^ 8) :
    skip_encoded_int (put_lenenc n ++ rest) = rest := by
  rw [skip_encoded_int_eq, get_encoded_int_put n rest h]

theorem skip_encoded_str_put (s : List Nat) (rest : List Nat) (h : s.length < 256 ^ 8) :
    skip_encoded_str (put_lenenc_str s ++ rest) = rest := by
  simp only [skip_encoded_str, put_lenenc_str, List.append_assoc]
  rw [get_encoded_int_put s.length (s ++ rest) h]
  simp [List.drop_left]

/-! ### Protocol constants

Values of the macros used by `mariadb_backend.cc`; they are defined in
protocol headers outside `src/` but their values are fixed by the MySQL
wire protocol and restated in the spec (§6, glossary). -/

def MYSQL_REPLY_OK : Nat := 0x00
def MYSQL_REPLY_ERR : Nat := 0xff
def MYSQL_REPLY_EOF : Nat := 0xfe
def MYSQL_REPLY_LOCAL_INFILE : Nat := 0xfb
def MYSQL_HEADER_LEN : Nat := 4
def MYSQL_EOF_PACKET_LEN : Nat := 9
def GW_MYSQL_MAX_PACKET_LEN : Nat := 0xffffff
def SERVER_MORE_RESULTS_EXIST : Nat := 0x0008
def SERVER_SESSION_STATE_CHANGED : Nat := 0x4000
def MXS_COM_FIELD_LIST : Nat := 0x04
def MXS_COM_STATISTICS : Nat := 0x09
def MXS_COM_BINLOG_DUMP : Nat := 0x12
def MXS_COM_STMT_PREPARE : Nat := 0x16
def SESSION_TRACK_SYSTEM_VARIABLES : Nat := 0
def SESSION_TRACK_SCHEMA : Nat := 1
def SESSION_TRACK_STATE_CHANGE : Nat := 2
def SESSION_TRACK_GTIDS : Nat := 3
def SESSION_TRACK_TRANSACTION_CHARACTERISTICS : Nat := 4
def SESSION_TRACK_TRANSACTION_TYPE : Nat := 5

/-- Variable name used by `m_reply.set_variable(MXS_LAST_GTID, ...)`,
as a byte string ("last_gtid"). -/
def MXS_LAST_GTID : List Nat := [108, 97, 115, 116, 95, 103, 116, 105, 100]

/-- Variable name "trx_characteristics". -/
def TRX_CHARACTERISTICS_NAME : List Nat :=
  [116, 114, 120, 95, 99, 104, 97, 114, 97, 99, 116, 101, 114, 105, 115, 116, 105, 99, 115]

/-- Variable name "trx_state". -/
def TRX_STATE_NAME : List Nat := [116, 114, 120, 95, 115, 116, 97, 116, 101]

/-! ### Reply state machine

Embedding of the `mxs::ReplyState` enum and of the per-connection fields
of `MariaDBBackendConnection` that the reply state machine reads and
writes (`m_reply`, `m_num_coldefs`, `m_ps_packets`, `m_skip_next`,
`m_opening_cursor`, `m_changing_user`, `m_track_state`). -/

inductive ReplyState
  | start
  | rsetColdef
  | rsetColdefEof
  | rsetRows
  | prepare
  | done
deriving DecidableEq, Repr

/-- The reply-machine state of one backend connection.  `command` is
`m_reply.command()` (the command byte last sent to the backend);
`trackState` models the conjunction of the service's
`RCAP_TYPE_SESSION_STATE_TRACKING` capability and `m_track_state`;
`variables` records the `m_reply.set_variable` calls in order. -/
structure Conn where
  state : ReplyState := .start
  command : Nat := 0
  numColdefs : Nat := 0
  psPackets : Nat := 0
  rows : Nat := 0
  warnings : Nat := 0
  fieldCount : Nat := 0
  generatedId : Nat := 0
  paramCount : Nat := 0
  skipNext : Bool := false
  openingCursor : Bool := false
  changingUser : Bool := false
  trackState : Bool := false
  isOk : Bool := false
  loadActive : Bool := false
  trackedVars : List (List Nat × List Nat) := []
  lastError : Option (Nat × List Nat × List Nat) := none
deriving DecidableEq, Repr

/-- Embeds `is_last_eof` (lines 119-126): skip command byte and warning
count, read the 16-bit status, test `SERVER_MORE_RESULTS_EXIST`. -/
def is_last_eof (payload : List Nat) : Bool :=
  Nat.land (readU16 (payload.drop 3)) SERVER_MORE_RESULTS_EXIST == 0

/-- Embeds `update_error` (lines 2386-2399).  `bs` starts at the error
code (the 0xff command byte has already been skipped by the caller):
16-bit code, one marker byte, 5 bytes of SQLSTATE, message to the end. -/
def update_error (c : Conn) (bs : List Nat) : Conn :=
  { c with lastError := some (readU16 bs, ((bs.drop 3).take 5, bs.drop 8)) }

theorem length_drop_le (bs : List Nat) (n : Nat) : (bs.drop n).length ≤ bs.length := by
  simp only [List.length_drop]; omega

theorem skip_encoded_int_le (bs : List Nat) :
    (skip_encoded_int bs).length ≤ bs.length := by
  rw [skip_encoded_int_eq]; exact get_encoded_int_drop bs

theorem get_encoded_str_snd_le (bs : List Nat) :
    (get_encoded_str bs).2.length ≤ bs.length := by
  have h := get_encoded_int_drop bs
  simp only [get_encoded_str, List.length_drop]
  omega

/-- Loop body of the session-state extraction in `process_ok_packet`
(lines 2205-2247): while bytes remain, read a type byte and a
length-encoded total size, then dispatch on the type.  Appends the
`set_variable` calls to `vars`. -/
def track_entries (vars : List (List Nat × List Nat)) (bs : List Nat) :
    List (List Nat × List Nat) :=
  match bs with
  | [] => vars
  | t :: rest =>
    let r := get_encoded_int rest
    if t = SESSION_TRACK_STATE_CHANGE then
      track_entries vars (r.2.drop r.1)
    else if t = SESSION_TRACK_SCHEMA then
      track_entries vars (skip_encoded_str r.2)
    else if t = SESSION_TRACK_GTIDS then
      let r2 := get_encoded_str (skip_encoded_int r.2)
      track_entries (vars ++ [(MXS_LAST_GTID, r2.1)]) r2.2
    else if t = SESSION_TRACK_TRANSACTION_CHARACTERISTICS then
      let r2 := get_encoded_str r.2
      track_entries (vars ++ [(TRX_CHARACTERISTICS_NAME, r2.1)]) r2.2
    else if t = SESSION_TRACK_SYSTEM_VARIABLES then
      let rn := get_encoded_str r.2
      let rv := get_encoded_str rn.2
      track_entries (vars ++ [(rn.1, rv.1)]) rv.2
    else if t = SESSION_TRACK_TRANSACTION_TYPE then
      let r2 := get_encoded_str r.2
      track_entries (vars ++ [(TRX_STATE_NAME, r2.1)]) r2.2
    else
      track_entries vars (r.2.drop r.1)
termination_by bs.length
decreasing_by
  all_goals simp only [List.length_cons]
  all_goals apply Nat.lt_succ_of_le
  · exact le_trans (length_drop_le _ _) (get_encoded_int_drop _)
  · exact le_trans (skip_encoded_str_length _) (get_encoded_int_drop _)
  · exact le_trans (get_encoded_str_snd_le _)
      (le_trans (skip_encoded_int_le _) (get_encoded_int_drop _))
  · exact le_trans (get_encoded_str_snd_le _) (get_encoded_int_drop _)
  · exact le_trans (get_encoded_str_snd_le _)
      (le_trans (get_encoded_str_snd_le _) (get_encoded_int_drop _))
  · exact le_trans (get_encoded_str_snd_le _) (get_encoded_int_drop _)
  · exact le_trans (length_drop_le _ _) (get_encoded_int_drop _)

/-- Embeds `process_ok_packet` (lines 2171-2249): skip the command byte,
the affected-rows and last-insert-id length-encoded integers, read the
status and warning fields; `DONE` unless `SERVER_MORE_RESULTS_EXIST`;
when session-state tracking applies, skip the info string and the total
length and extract the tracking entries. -/
def process_ok_packet (c : Conn) (payload : List Nat) : Conn :=
  let r1 := skip_encoded_int (payload.drop 1)
  let r2 := skip_encoded_int r1
  let status := readU16 r2
  let r3 := r2.drop 2
  let warnings := readU16 r3
  let r4 := r3.drop 2
  let c1 := if Nat.land status SERVER_MORE_RESULTS_EXIST = 0 then
    { c with state := .done } else c
  let c2 := { c1 with warnings := warnings }
  if c.trackState ∧ Nat.land status SERVER_SESSION_STATE_CHANGED ≠ 0 then
    let r5 := skip_encoded_str r4
    let r6 := (get_encoded_int r5).2
    { c2 with trackedVars := track_entries c2.trackedVars r6 }
  else
    c2

/-- Embeds `process_ps_response` (lines 2270-2308): parse the
COM_STMT_PREPARE OK payload (statement id, column count, parameter
count), set `ps_packets` and move to `PREPARE` or `DONE`. -/
def process_ps_response (c : Conn) (payload : List Nat) : Conn :=
  let r1 := payload.drop 1
  let stmtId := leUint (r1.take 4)
  let r2 := r1.drop 4
  let columns := readU16 r2
  let r3 := r2.drop 2
  let params := readU16 r3
  let psPackets := (if columns ≠ 0 then columns + 1 else 0)
    + (if params ≠ 0 then params + 1 else 0)
  { c with generatedId := stmtId, paramCount := params, psPackets := psPackets,
           state := if psPackets = 0 then .done else .prepare }

/-- Embeds `process_result_start` (lines 2333-2378): dispatch on the
first payload byte. -/
def process_result_start (c : Conn) (payload : List Nat) : Conn :=
  let cmd := payload.headD 0
  if cmd = MYSQL_REPLY_OK then
    let c1 := { c with isOk := true }
    if c.command = MXS_COM_STMT_PREPARE then process_ps_response c1 payload
    else process_ok_packet c1 payload
  else if cmd = MYSQL_REPLY_LOCAL_INFILE then
    { c with loadActive := true, state := .done }
  else if cmd = MYSQL_REPLY_ERR then
    { update_error c (payload.drop 1) with state := .done }
  else if cmd = MYSQL_REPLY_EOF then
    -- EOF as the first response packet is only legal while changing user
    -- (debug assert `m_changing_user`); no state change either way.
    c
  else
    let r := get_encoded_int payload
    { c with numColdefs := r.1, fieldCount := c.fieldCount + r.1,
             state := .rsetColdef }

/-- Embeds `process_reply_start` (lines 2310-2331): special commands
first, otherwise classify by the first payload byte. -/
def process_reply_start (c : Conn) (payload : List Nat) : Conn :=
  if c.command = MXS_COM_BINLOG_DUMP then c
  else if c.command = MXS_COM_STATISTICS then { c with state := .done }
  else if c.command = MXS_COM_FIELD_LIST then { c with state := .rsetRows }
  else process_result_start c payload

/-- Embeds `process_one_packet` (lines 2091-2168): one whole packet
payload (of header length `len`) fed to the reply state machine. -/
def process_one_packet (c : Conn) (payload : List Nat) (len : Nat) : Conn :=
  let cmd := payload.headD 0
  match c.state with
  | .start => process_reply_start c payload
  | .done =>
    if cmd = MYSQL_REPLY_ERR then update_error c (payload.drop 1) else c
  | .rsetColdef =>
    let n := c.numColdefs - 1
    if n = 0 then { c with numColdefs := n, state := .rsetColdefEof }
    else { c with numColdefs := n }
  | .rsetColdefEof =>
    -- debug assert: cmd == MYSQL_REPLY_EOF && len == 5
    if c.openingCursor then
      { c with openingCursor := false, state := .done }
    else
      { c with state := .rsetRows }
  | .rsetRows =>
    if cmd = MYSQL_REPLY_EOF ∧ len = MYSQL_EOF_PACKET_LEN - MYSQL_HEADER_LEN then
      { c with state := if is_last_eof payload then .done else .start,
               warnings := readU16 (payload.drop 1) }
    else if cmd = MYSQL_REPLY_ERR then
      { update_error c (payload.drop 1) with state := .done }
    else
      { c with rows := c.rows + 1 }
  | .prepare =>
    let n := c.psPackets - 1
    if n = 0 then { c with psPackets := n, state := .done }
    else { c with psPackets := n }

/-! ### Packet framer

Embedding of `process_packets` (lines 2039-2089).  The source scans the
buffer for complete packets (4-byte little-endian header, declared
payload length), feeds each complete payload to `process_one_packet`
(unless the previous packet had the maximum length, in which case the
packet is a raw continuation tail and classification is skipped), and
splits off the consumed bytes, leaving any partial packet in the buffer. -/

/-- One framing step: if the buffer holds a complete packet (4-byte
header and full payload), return its declared length, its raw bytes and
its payload together with the remaining buffer. -/
def splitPacket (buf : List Nat) : Option ((Nat × List Nat × List Nat) × List Nat) :=
  match buf with
  | b0 :: b1 :: b2 :: seq :: rest =>
    let len := b0 + 256 * b1 + 65536 * b2
    if len ≤ rest.length then
      some ((len, b0 :: b1 :: b2 :: seq :: rest.take len, rest.take len), rest.drop len)
    else none
  | _ => none

theorem splitPacket_rest_lt (buf : List Nat) (f : Nat × List Nat × List Nat)
    (rest : List Nat) (h : splitPacket buf = some (f, rest)) :
    rest.length < buf.length := by
  match buf with
  | [] => simp [splitPacket] at h
  | [b0] => simp [splitPacket] at h
  | [b0, b1] => simp [splitPacket] at h
  | [b0, b1, b2] => simp [splitPacket] at h
  | b0 :: b1 :: b2 :: seq :: r =>
    simp only [splitPacket] at h
    split at h
    · cases h
      simp only [List.length_drop, List.length_cons]
      omega
    · cases h

/-- Embeds `process_packets` (lines 2039-2089).  Returns the final
connection state, the sequence of consumed raw packets (the bytes the
source splits off and forwards) and the residual bytes. -/
def process_packets (c : Conn) (buf : List Nat) :
    Conn × List (List Nat) × List Nat :=
  match h : splitPacket buf with
  | none => (c, [], buf)
  | some (f, rest) =>
    let skip := c.skipNext
    let c1 := { c with skipNext := f.1 = GW_MYSQL_MAX_PACKET_LEN }
    let c2 := if skip then c1 else process_one_packet c1 f.2.2 f.1
    let r := process_packets c2 rest
    (r.1, f.2.1 :: r.2.1, r.2.2)
termination_by buf.length
decreasing_by
  exact splitPacket_rest_lt buf f rest h

/-- Incremental feeding: fold the chunks through `process_packets`,
carrying the unconsumed residual bytes and the connection state, and
accumulating the consumed packets, exactly as `gw_read_and_write` does
via the DCB read queue. -/
def feed_chunks (c : Conn) (chunks : List (List Nat)) :
    Conn × List (List Nat) × List Nat :=
  chunks.foldl
    (fun acc chunk =>
      let r := process_packets acc.1 (acc.2.2 ++ chunk)
      (r.1, acc.2.1 ++ r.2.1, r.2.2))
    (c, [], [])

/-! ### SHA-1 and the password scramble

`gw_sha1_str`, `gw_sha1_2_str` and `gw_str_xor` are declared in
maxutils, whose implementation is not under `src/`; per the spec they
are plain SHA-1 and bytewise XOR, so they are modelled here from the
spec with a standard SHA-1 over byte lists. -/

/-- Truncate to a 32-bit word. -/
def w32 (n : Nat) : Nat := n % 4294967296

/-- Rotate a 32-bit word left by `s` bits. -/
def rotl (s n : Nat) : Nat := w32 (n * 2 ^ s) + n / 2 ^ (32 - s)

/-- SHA-1 round function. -/
def sha1_f (t b c d : Nat) : Nat :=
  if t < 20 then Nat.lor (Nat.land b c) (Nat.land (4294967295 - b) d)
  else if t < 40 then Nat.xor b (Nat.xor c d)
  else if t < 60 then Nat.lor (Nat.lor (Nat.land b c) (Nat.land b d)) (Nat.land c d)
  else Nat.xor b (Nat.xor c d)

/-- SHA-1 round constants. -/
def sha1_k (t : Nat) : Nat :=
  if t < 20 then 0x5A827999
  else if t < 40 then 0x6ED9EBA1
  else if t < 60 then 0x8F1BBCDC
  else 0xCA62C1D6

/-- Big-endian 4-byte group of a byte list into 32-bit words. -/
def beWords : List Nat → List Nat
  | b0 :: b1 :: b2 :: b3 :: rest => (((b0 * 256 + b1) * 256 + b2) * 256 + b3) :: beWords rest
  | _ => []

/-- Extend a 16-word schedule by `k` further words. -/
def sha1_extend (ws : List Nat) : Nat → List Nat
  | 0 => ws
  | k + 1 =>
    let i := ws.length
    let w := rotl 1 (Nat.xor (ws.getD (i - 3) 0)
      (Nat.xor (ws.getD (i - 8) 0) (Nat.xor (ws.getD (i - 14) 0) (ws.getD (i - 16) 0))))
    sha1_extend (ws ++ [w]) k

/-- One SHA-1 compression round. -/
def sha1_round (st : Nat × Nat × Nat × Nat × Nat) (tw : Nat × Nat) :
    Nat × Nat × Nat × Nat × Nat :=
  let temp := w32 (rotl 5 st.1 + sha1_f tw.1 st.2.1 st.2.2.1 st.2.2.2.1
    + st.2.2.2.2 + sha1_k tw.1 + tw.2)
  (temp, st.1, rotl 30 st.2.1, st.2.2.1, st.2.2.2.1)

/-- Compress one 64-byte chunk into the running hash state. -/
def sha1_compress (h : Nat × Nat × Nat × Nat × Nat) (chunk : List Nat) :
    Nat × Nat × Nat × Nat × Nat :=
  let ws := sha1_extend (beWords chunk) 64
  let st := ws.enum.foldl sha1_round h
  (w32 (h.1 + st.1), w32 (h.2.1 + st.2.1), w32 (h.2.2.1 + st.2.2.1),
   w32 (h.2.2.2.1 + st.2.2.2.1), w32 (h.2.2.2.2 + st.2.2.2.2))

/-- Split a byte list into 64-byte chunks. -/
def chunks64 (l : List Nat) : List (List Nat) :=
  match l with
  | [] => []
  | x :: xs => ((x :: xs).take 64) :: chunks64 ((x :: xs).drop 64)
termination_by l.length
decreasing_by
  simp only [List.length_drop, List.length_cons]
  omega

/-- Big-endian byte image of an up-to-64-bit length field. -/
def beBytes8 (n : Nat) : List Nat := (leBytes 8 n).reverse

/-- Big-endian byte image of a 32-bit word. -/
def beBytes4 (n : Nat) : List Nat := (leBytes 4 n).reverse

/-- SHA-1 padding: a 0x80 byte, zeros to 56 mod 64, the bit length
big-endian in 8 bytes. -/
def sha1_pad (msg : List Nat) : List Nat :=
  msg ++ [0x80] ++ List.replicate ((64 - ((msg.length + 9) % 64)) % 64) 0
    ++ beBytes8 (msg.length * 8)

/-- Modelled from the spec: SHA-1 of a byte string (the maxutils
`gw_sha1_str`, not under `src/`; the spec's §4.3 specifies plain SHA-1). -/
def sha1 (msg : List Nat) : List Nat :=
  let h := (chunks64 (sha1_pad msg)).foldl sha1_compress
    (0x67452301, 0xEFCDAB89, 0x98BADCFE, 0x10325476, 0xC3D2E1F0)
  beBytes4 h.1 ++ beBytes4 h.2.1 ++ beBytes4 h.2.2.1
    ++ beBytes4 h.2.2.2.1 ++ beBytes4 h.2.2.2.2

theorem sha1_length (msg : List Nat) : (sha1 msg).length = 20 := by
  simp [sha1, beBytes4, leBytes_length]

/-- Modelled from the spec: `gw_str_xor` of maxutils (not under `src/`)
is the bytewise XOR of its two inputs. -/
def gw_str_xor (a b : List Nat) : List Nat := List.zipWith Nat.xor a b

/-- Copy into a zero-initialized buffer of `k` bytes (the
`uint8_t buf[k] = ""; memcpy(buf, src, n)` pattern). -/
def padTo (k : Nat) (l : List Nat) : List Nat :=
  l.take k ++ List.replicate (k - (l.take k).length) 0

theorem padTo_eq_of_length (k : Nat) (l : List Nat) (h : l.length = k) :
    padTo k l = l := by
  simp [padTo, List.take_of_length_le, h]

/-- Embeds `mxs_mysql_calculate_hash` (unnamed part_000 lines 385-402):
`hash1 = passwd` (20 bytes), `hash2 = SHA1(hash1)`,
`new_sha = SHA1(scramble ‖ hash2)`, output `new_sha XOR hash1`. -/
def mxs_mysql_calculate_hash (scramble passwd : List Nat) : List Nat :=
  let hash1 := padTo 20 passwd
  let hash2 := padTo 20 (sha1 hash1)
  let new_sha := padTo 20 (sha1 (padTo 20 scramble ++ hash2))
  gw_str_xor new_sha hash1

/-- Embeds the password branch of `gw_create_change_user_packet`
(mariadb_backend.cc lines 1334-1372): the same scramble computation,
inlined in the source (`hash1`, `hash2`, `new_sha`, `gw_str_xor`). -/
def gw_create_change_user_scramble (scramble authToken : List Nat) : List Nat :=
  let hash1 := padTo 20 authToken
  let hash2 := padTo 20 (sha1 hash1)
  let new_sha := padTo 20 (sha1 (padTo 20 scramble ++ hash2))
  gw_str_xor new_sha hash1

/-- The spec's password-scramble formula (§4.3): `H1 XOR SHA1(S ‖ SHA1(H1))`. -/
def scramble_spec (S H1 : List Nat) : List Nat :=
  List.zipWith Nat.xor H1 (sha1 (S ++ sha1 H1))

/-! ### COM_CHANGE_USER auth-switch handling -/

/-- Byte string "mysql_native_password" (`DEFAULT_MYSQL_AUTH_PLUGIN`). -/
def DEFAULT_MYSQL_AUTH_PLUGIN : List Nat :=
  [109, 121, 115, 113, 108, 95, 110, 97, 116, 105, 118, 101, 95,
   112, 97, 115, 115, 119, 111, 114, 100]

/-- Embeds `send_mysql_native_password_response` (lines 1754-1766): a
packet with 3-byte length 20, sequence byte 2, and the scrambled
password as payload.  `authToken` is `m_client_data->auth_token_phase2`;
when it is empty the 20-zero-byte `null_client_sha1` is used. -/
def send_mysql_native_password_response (scramble authToken : List Nat) : List Nat :=
  let curr_passwd := if authToken.isEmpty then List.replicate 20 0 else authToken
  [20, 0, 0, 2] ++ mxs_mysql_calculate_hash scramble curr_passwd

/-- Embeds `handle_auth_change_response` (lines 608-629): if the plugin
name at offset 5 of the reply is `mysql_native_password`, copy the 20
scramble bytes that follow it and send the scrambled-password response.
Returns the new `m_scramble` and the written packet. -/
def handle_auth_change_response (reply authToken : List Nat) :
    Option (List Nat × List Nat) :=
  if (reply.drop 5).takeWhile (fun b => b ≠ 0) = DEFAULT_MYSQL_AUTH_PLUGIN then
    let newScramble := (reply.drop (5 + DEFAULT_MYSQL_AUTH_PLUGIN.length + 1)).take 20
    some (newScramble, send_mysql_native_password_response newScramble authToken)
  else none

/-- Embeds `auth_change_requested` (lines 602-606): command byte 0xfe
and total length above `MYSQL_EOF_PACKET_LEN`. -/
def auth_change_requested (reply : List Nat) : Bool :=
  reply.getD 4 0 == MYSQL_REPLY_EOF && reply.length > MYSQL_EOF_PACKET_LEN

/-- Embeds the `m_ignore_replies > 0` AuthSwitchRequest branch of
`gw_read_and_write` (lines 802-851): decrement `ignore_replies`, handle
the auth change (new scramble plus response packet), then increment
`ignore_replies` again while the authentication result is awaited.
Returns the new `ignore_replies`, the new scramble and the sent packet. -/
def com_change_user_auth_switch (ignoreReplies : Nat) (reply authToken : List Nat) :
    Option (Nat × List Nat × List Nat) :=
  if ignoreReplies > 0 ∧ auth_change_requested reply then
    match handle_auth_change_response reply authToken with
    | some r => some (ignoreReplies - 1 + 1, r.1, r.2)
    | none => none
  else none

/-! ### Server handshake decoding -/

/-- Result of `gw_decode_mysql_server_handshake`: the return code and,
on success, the 20-byte `m_scramble`, the thread id and the server
capability mask that were stored. -/
structure HandshakeResult where
  rc : Int
  scramble : List Nat
  threadId : Nat
  serverCaps : Nat
deriving DecidableEq, Repr

/-- Embeds `gw_decode_mysql_server_handshake` (lines 1775-1862).
Release semantics: `-1` when the protocol byte is not 0x0a; when the
declared auth-data length byte is positive, `-2` when
`auth_byte - 1 < 8` or `auth_byte - 1 > 20`; otherwise the 20-byte
scramble is assembled from the 8 early bytes and `scramble_len - 8`
later bytes (the rest of the zero-initialized buffer remains zero). -/
def gw_decode_mysql_server_handshake (payload : List Nat) : HandshakeResult :=
  if payload.headD 0 ≠ 10 then
    { rc := -1, scramble := [], threadId := 0, serverCaps := 0 }
  else
    let r1 := ((payload.drop 1).dropWhile (fun b => b ≠ 0)).drop 1
    let threadId := leUint (r1.take 4)
    let r2 := r1.drop 4
    let scramble1 := padTo 8 (r2.take 8)
    let r3 := (r2.drop 8).drop 1
    let cap1 := readU16 r3
    let r4 := r3.drop 5
    let cap2 := readU16 r4
    let r5 := r4.drop 2
    let authByte := r5.headD 0
    if authByte > 0 ∧ (authByte - 1 < 8 ∨ authByte - 1 > 20) then
      { rc := -2, scramble := [], threadId := threadId,
        serverCaps := cap1 + 65536 * cap2 }
    else
      let scrambleLen := if authByte > 0 then authByte - 1 else 20
      let r6 := r5.drop 11
      let scramble2 := padTo (scrambleLen - 8) (r6.take (scrambleLen - 8))
      { rc := 0,
        scramble := scramble1 ++ scramble2
          ++ List.replicate (12 - (scrambleLen - 8)) 0,
        threadId := threadId,
        serverCaps := cap1 + 65536 * cap2 }

/-! ### Connection pooling state -/

/-- The backend authentication states (`AuthState` enum). -/
inductive AuthState
  | connected
  | responseSent
  | complete
  | fail
  | failHandshake
deriving DecidableEq, Repr

/-- The fields of `MariaDBBackendConnection` that `established` reads:
`m_auth_state`, `m_ignore_replies` and `m_stored_query`. -/
structure BackendState where
  authState : AuthState
  ignoreReplies : Nat
  storedQuery : Option (List Nat)
deriving DecidableEq, Repr

/-- Embeds `established` (lines 1564-1567). -/
def established (s : BackendState) : Bool :=
  s.authState == .complete && s.ignoreReplies == 0 && s.storedQuery == none

/-- Embeds the protocol-state effect of `reuse_connection`
(lines 196-245): only a connection with `AuthState::COMPLETE`
qualifies; on success `m_ignore_replies` is reset to 0, the stored
query slot is cleared, COM_CHANGE_USER is queued and `m_ignore_replies`
is incremented.  `writeOk` is the result of `writeq_append`. -/
def reuse_connection (s : BackendState) (writeOk : Bool) : Option BackendState :=
  if s.authState = .complete then
    let s1 : BackendState :=
      { authState := s.authState, ignoreReplies := 0, storedQuery := none }
    if writeOk then some { s1 with ignoreReplies := s1.ignoreReplies + 1 }
    else none
  else none

/-! ### Execution traces and concrete wire images for the claims -/

/-- Run the reply machine over a sequence of packet payloads, recording
the state in which each packet is processed and the final connection. -/
def run_trace (c : Conn) : List (List Nat) → List ReplyState × Conn
  | [] => ([], c)
  | p :: ps =>
    let c1 := process_one_packet c p p.length
    let r := run_trace c1 ps
    (c.state :: r.1, r.2)

/-- A minimal OK-packet payload (spec §6): command byte 0x00, one-byte
affected-rows and last-insert-id, 16-bit status `st`, zero warnings. -/
def mkOkPayload (st : Nat) : List Nat :=
  0 :: 0 :: 0 :: leBytes 2 st ++ [0, 0]

/-- Abstract session-state tracking entries of the kinds named by the
spec's invariant 7: system variables, GTIDs, and unknown types. -/
inductive TrackEntry
  | sysVar (name value : List Nat)
  | gtids (encodingSpec : Nat) (gtid : List Nat)
  | unknown (t : Nat) (body : List Nat)

/-- Wire image of one tracking entry (spec §4.6): a type byte, the
length-encoded body size, the body. -/
def encodeEntry : TrackEntry → List Nat
  | .sysVar n v =>
    let body := put_lenenc_str n ++ put_lenenc_str v
    SESSION_TRACK_SYSTEM_VARIABLES :: put_lenenc body.length ++ body
  | .gtids es g =>
    let body := put_lenenc es ++ put_lenenc_str g
    SESSION_TRACK_GTIDS :: put_lenenc body.length ++ body
  | .unknown t body =>
    t :: put_lenenc body.length ++ body

/-- Wire image of a tracking block. -/
def encodeEntries (es : List TrackEntry) : List Nat :=
  (es.map encodeEntry).flatten

/-- The `set_variable` calls an entry list should produce: the
(name, value) pairs of the system-variable entries, `last_gtid` for a
GTIDS entry, nothing for an unknown entry. -/
def expectedVars : List TrackEntry → List (List Nat × List Nat)
  | [] => []
  | .sysVar n v :: es => (n, v) :: expectedVars es
  | .gtids _ g :: es => (MXS_LAST_GTID, g) :: expectedVars es
  | .unknown _ _ :: es => expectedVars es

/-- Well-formedness of a tracking entry as wire bytes: string lengths
and values fit their length-encoded fields; an unknown type is a byte
distinct from the six known types. -/
def entryWF : TrackEntry → Prop
  | .sysVar n v => n.length < 256 ^ 4 ∧ v.length < 256 ^ 4
  | .gtids es g => es < 256 ^ 4 ∧ g.length < 256 ^ 4
  | .unknown t body => 5 < t ∧ t < 256 ∧ body.length < 256 ^ 4

/-- A concrete AuthSwitchRequest packet to `mysql_native_password`
(4-byte header, 0xfe marker, plugin name, NUL, 20 scramble bytes). -/
def c3_reply : List Nat :=
  [0, 0, 0, 0, 254] ++ DEFAULT_MYSQL_AUTH_PLUGIN ++ [0] ++ List.replicate 20 7

/-- A concrete 20-byte cached password hash. -/
def c3_token : List Nat := List.replicate 20 1

/-- A well-formed v10 greeting whose auth-data length byte is 9, i.e.
whose declared scramble length is 8: protocol byte 0x0a, version "5",
thread id 1, 8 scramble bytes, filler, capabilities, charset, status,
capabilities, auth-data length byte 9, 10 reserved zero bytes, plugin
terminator. -/
def failing_greeting : List Nat :=
  [10] ++ [53, 0] ++ [1, 0, 0, 0] ++ [1, 2, 3, 4, 5, 6, 7, 8] ++ [0]
    ++ [255, 255] ++ [8] ++ [2, 0] ++ [0, 0] ++ [9] ++ List.replicate 10 0 ++ [0]

/-! ## Claim theorems -/

/-- Claim C9: the length-encoded integer decoder returns the first byte
`b` itself when `b` is below 0xFB, the little-endian value of the next
2 bytes when `b` is 0xFC, of the next 3 bytes when `b` is 0xFD and of
the next 8 bytes when `b` is 0xFE, consuming exactly 1, 3, 4 or 9 bytes
respectively; the skipping variant advances by the same amount. -/
theorem C9_lenenc_int_decoder :
    (∀ b rest, b < 0xfb → get_encoded_int (b :: rest) = (b, rest)) ∧
    (∀ x0 x1 rest,
      get_encoded_int (0xfc :: x0 :: x1 :: rest) = (leUint [x0, x1], rest)) ∧
    (∀ x0 x1 x2 rest,
      get_encoded_int (0xfd :: x0 :: x1 :: x2 :: rest) = (leUint [x0, x1, x2], rest)) ∧
    (∀ x0 x1 x2 x3 x4 x5 x6 x7 rest,
      get_encoded_int (0xfe :: x0 :: x1 :: x2 :: x3 :: x4 :: x5 :: x6 :: x7 :: rest)
        = (leUint [x0, x1, x2, x3, x4, x5, x6, x7], rest)) ∧
    (∀ bs, skip_encoded_int bs = (get_encoded_int bs).2) := by
  refine ⟨?_, ?_, ?_, ?_, skip_encoded_int_eq⟩
  · intro b rest h
    have hne2 : ¬ (b = 0xfc) := by omega
    have hne3 : ¬ (b = 0xfd) := by omega
    have hne4 : ¬ (b = 0xfe) := by omega
    simp [get_encoded_int, hne2, hne3, hne4]
  · intro x0 x1 rest; rfl
  · intro x0 x1 x2 rest; rfl
  · intro x0 x1 x2 x3 x4 x5 x6 x7 rest; rfl

/-- Witness for C9 at concrete inputs. -/
theorem C9_lenenc_int_decoder_witness :
    5 < 0xfb ∧ get_encoded_int [5, 9] = (5, [9]) :=
  ⟨by decide, C9_lenenc_int_decoder.1 5 [9] (by decide)⟩

theorem padTo_length (k : Nat) (l : List Nat) : (padTo k l).length = k := by
  simp only [padTo, List.length_append, List.length_take, List.length_replicate]
  omega

/-- Claim C4: for every 20-byte scramble `S` and 20-byte cached hash
`H1`, the scrambled password built by `gw_create_change_user_packet`
equals `H1 XOR SHA1(S ‖ SHA1(H1))`, is exactly 20 bytes long and is a
deterministic function of `S` and `H1`. -/
theorem C4_change_user_scramble (S H1 : List Nat)
    (hS : S.length = 20) (hH : H1.length = 20) :
    gw_create_change_user_scramble S H1 = scramble_spec S H1 ∧
    (gw_create_change_user_scramble S H1).length = 20 ∧
    gw_create_change_user_scramble S H1 = gw_create_change_user_scramble S H1 := by
  have e1 : padTo 20 S = S := padTo_eq_of_length 20 S hS
  have e2 : padTo 20 H1 = H1 := padTo_eq_of_length 20 H1 hH
  have e3 : padTo 20 (sha1 H1) = sha1 H1 := padTo_eq_of_length 20 _ (sha1_length H1)
  have e4 : padTo 20 (sha1 (S ++ sha1 H1)) = sha1 (S ++ sha1 H1) :=
    padTo_eq_of_length 20 _ (sha1_length _)
  simp only [gw_create_change_user_scramble, scramble_spec, gw_str_xor,
    e1, e2, e3, e4]
  refine ⟨List.zipWith_comm_of_comm Nat.xor Nat.xor_comm _ _, ?_, trivial⟩
  simp [List.length_zipWith, sha1_length, hH]

/-- Witness for C4 at a concrete scramble and hash. -/
theorem C4_change_user_scramble_witness :
    (List.replicate 20 3).length = 20 ∧ (List.replicate 20 1).length = 20 ∧
    gw_create_change_user_scramble (List.replicate 20 3) (List.replicate 20 1)
      = scramble_spec (List.replicate 20 3) (List.replicate 20 1) :=
  ⟨by decide, by decide,
    (C4_change_user_scramble _ _ (by decide) (by decide)).1⟩

/-- Claim C10: `established` returns true exactly when authentication is
COMPLETE, `ignore_replies` is zero and no stored query is pending, so a
pooled connection freshly reclaimed through `reuse_connection` (which
leaves `ignore_replies` at 1 for the COM_CHANGE_USER reply) never
reports itself established, nor does any connection with an outstanding
ignored reply or a stored query awaiting its flush. -/
theorem C10_established (s : BackendState) :
    (established s = true ↔
      s.authState = .complete ∧ s.ignoreReplies = 0 ∧ s.storedQuery = none) ∧
    (∀ s' w, reuse_connection s w = some s' → established s' = false) ∧
    (1 ≤ s.ignoreReplies ∨ s.storedQuery ≠ none → established s = false) := by
  refine ⟨?_, ?_, ?_⟩
  · simp [established, Bool.and_eq_true, beq_iff_eq, and_assoc]
  · intro s' w h
    simp only [reuse_connection] at h
    split at h
    · split at h
      · cases h; simp [established]
      · cases h
    · cases h
  · intro h
    simp only [established, Bool.and_eq_false_iff]
    rcases h with h | h
    · left; right
      simp only [beq_eq_false_iff_ne, ne_eq]
      omega
    · right
      simpa [Option.isNone_iff_eq_none] using h

/-- Witness for C10: a freshly pooled connection with one outstanding
COM_CHANGE_USER reply is not established. -/
theorem C10_established_witness :
    (1 ≤ (1 : Nat) ∨ (none : Option (List Nat)) ≠ none) ∧
    established ⟨.complete, 1, none⟩ = false :=
  ⟨Or.inl le_rfl, (C10_established ⟨.complete, 1, none⟩).2.2 (Or.inl le_rfl)⟩

/-- Claim C7 (code bug): on the well-formed greeting
`failing_greeting`, whose declared auth-data length byte is 9 (declared
scramble length exactly 8), the release code accepts the handshake
(returns 0) and stores a 20-byte scramble padded from only 8 scramble
bytes, although the claim — and the adjacent debug assertion
`scramble_len > GW_SCRAMBLE_LENGTH_323` — require `8 < L`. -/
theorem C7_handshake_accepts_len8 :
    (gw_decode_mysql_server_handshake failing_greeting).rc = 0 ∧
    (gw_decode_mysql_server_handshake failing_greeting).scramble
      = [1, 2, 3, 4, 5, 6, 7, 8, 0, 0, 0, 0, 0, 0, 0, 0, 0, 0, 0, 0] ∧
    failing_greeting.getD 23 0 - 1 = 8 := by
  refine ⟨by decide, by decide, by decide⟩

/-- Claim C2 counterexample: in state RSetRows a packet whose first
payload byte is 0xFE and whose payload length is 7 (less than 9, with
the status field clear) is counted as a row and the machine stays in
RSetRows; the code only treats payloads of length exactly 5 as EOF. -/
theorem C2_counterexample :
    (process_one_packet { state := .rsetRows } [0xfe, 0, 0, 0, 0, 0, 0] 7).state
      = .rsetRows ∧
    (process_one_packet { state := .rsetRows } [0xfe, 0, 0, 0, 0, 0, 0] 7).rows = 1 ∧
    ([0xfe, 0, 0, 0, 0, 0, 0] : List Nat).length < 9 ∧
    Nat.land (readU16 ([0xfe, 0, 0, 0, 0, 0, 0] : List Nat).tail.tail.tail)
      SERVER_MORE_RESULTS_EXIST = 0 := by
  refine ⟨by decide, by decide, by decide, by decide⟩

/-- Claim C2 (amended to payload length exactly 5): in state RSetRows a
packet whose first payload byte is 0xFE and whose payload length is
exactly 5 is treated as the EOF terminator: the machine reads the
warning and status fields, moves to Done exactly when
MORE_RESULTS_EXIST is clear and back to Start otherwise, and does not
count the packet as a row. -/
theorem C2_rset_rows_eof (c : Conn) (payload : List Nat)
    (h1 : c.state = .rsetRows) (h2 : payload.headD 0 = MYSQL_REPLY_EOF)
    (h3 : payload.length = 5) :
    (process_one_packet c payload payload.length).state
      = (if Nat.land (readU16 (payload.drop 3)) SERVER_MORE_RESULTS_EXIST = 0
         then .done else .start) ∧
    (process_one_packet c payload payload.length).warnings
      = readU16 (payload.drop 1) ∧
    (process_one_packet c payload payload.length).rows = c.rows := by
  simp only [process_one_packet, h1, h2, h3]
  have hcond : True ∧ 5 = MYSQL_EOF_PACKET_LEN - MYSQL_HEADER_LEN :=
    ⟨trivial, by rfl⟩
  rw [if_pos hcond]
  refine ⟨?_, rfl, rfl⟩
  simp only [is_last_eof]
  by_cases hl : Nat.land (readU16 (payload.drop 3)) SERVER_MORE_RESULTS_EXIST = 0
  · simp [hl]
  · simp [hl]

/-- Witness for C2 at a concrete 5-byte EOF payload. -/
theorem C2_rset_rows_eof_witness :
    (Conn.state { state := .rsetRows } = .rsetRows ∧
      ([0xfe, 2, 0, 0, 0] : List Nat).headD 0 = MYSQL_REPLY_EOF ∧
      ([0xfe, 2, 0, 0, 0] : List Nat).length = 5) ∧
    (process_one_packet { state := .rsetRows } [0xfe, 2, 0, 0, 0] 5).state = .done :=
  ⟨⟨rfl, rfl, rfl⟩, by
    have h := C2_rset_rows_eof { state := .rsetRows } [0xfe, 2, 0, 0, 0]
      rfl rfl rfl
    simpa using h.1⟩

theorem readU16_leBytes2 (n : Nat) (rest : List Nat) (h : n < 256 ^ 2) :
    readU16 (leBytes 2 n ++ rest) = n := by
  simp only [leBytes, readU16, List.cons_append, List.headD_cons, List.tail_cons]
  omega

/-- Claim C5: a COM_STMT_PREPARE OK response declaring `cols` columns
and `params` parameters sets the prepare packet count to
`(cols ? cols+1 : 0) + (params ? params+1 : 0)` and moves to Prepare
when that count is non-zero and directly to Done when it is zero; in
state Prepare each subsequent packet decrements the count by one, and
Done is reached exactly when the count hits zero. -/
theorem C5_stmt_prepare :
    (∀ (c : Conn) (stmtId cols params : Nat) (tl : List Nat),
      c.state = .start → c.command = MXS_COM_STMT_PREPARE →
      stmtId < 256 ^ 4 → cols < 256 ^ 2 → params < 256 ^ 2 →
      process_one_packet c
          (0 :: (leBytes 4 stmtId ++ leBytes 2 cols ++ (leBytes 2 params ++ tl)))
          (0 :: (leBytes 4 stmtId ++ leBytes 2 cols ++ (leBytes 2 params ++ tl))).length
        = { c with
            isOk := true
            generatedId := stmtId
            paramCount := params
            psPackets := (if cols ≠ 0 then cols + 1 else 0)
              + (if params ≠ 0 then params + 1 else 0)
            state := if (if cols ≠ 0 then cols + 1 else 0)
                + (if params ≠ 0 then params + 1 else 0) = 0
              then ReplyState.done else ReplyState.prepare }) ∧
    (∀ (c : Conn) (pkts : List (List Nat)),
      c.state = .prepare → pkts.length = c.psPackets → 1 ≤ c.psPackets →
      (run_trace c pkts).1 = List.replicate pkts.length ReplyState.prepare ∧
      (run_trace c pkts).2.state = .done ∧
      (run_trace c pkts).2.psPackets = 0) := by
  constructor
  · intro c stmtId cols params tl h1 h2 hid hcols hparams
    have hres : process_one_packet c
        (0 :: (leBytes 4 stmtId ++ leBytes 2 cols ++ (leBytes 2 params ++ tl)))
        (0 :: (leBytes 4 stmtId ++ leBytes 2 cols ++ (leBytes 2 params ++ tl))).length
      = process_ps_response { c with isOk := true }
        (0 :: (leBytes 4 stmtId ++ leBytes 2 cols ++ (leBytes 2 params ++ tl))) := by
      simp [process_one_packet, h1, process_reply_start, h2, process_result_start,
        MXS_COM_STMT_PREPARE, MXS_COM_BINLOG_DUMP, MXS_COM_STATISTICS,
        MXS_COM_FIELD_LIST, MYSQL_REPLY_OK]
    rw [hres]
    simp only [process_ps_response]
    have e1 : (0 :: (leBytes 4 stmtId ++ leBytes 2 cols ++ (leBytes 2 params ++ tl))).drop 1
        = leBytes 4 stmtId ++ (leBytes 2 cols ++ (leBytes 2 params ++ tl)) := by
      simp [List.append_assoc]
    rw [e1]
    rw [take_append_exact _ _ _ (leBytes_length 4 stmtId),
        drop_append_exact _ _ _ (leBytes_length 4 stmtId)]
    rw [readU16_leBytes2 cols _ hcols,
        drop_append_exact _ _ _ (leBytes_length 2 cols)]
    rw [readU16_leBytes2 params _ hparams]
    rw [leUint_leBytes 4 stmtId hid]
  · intro c pkts
    induction pkts generalizing c with
    | nil =>
      intro h1 h2 h3
      rw [List.length_nil] at h2
      omega
    | cons p ps ih =>
      intro h1 h2 h3
      rw [List.length_cons] at h2
      by_cases hps : ps = []
      · subst hps
        simp only [List.length_nil] at h2
        have hone : c.psPackets - 1 = 0 := by omega
        have hdone : (process_one_packet c p p.length).state = .done := by
          simp only [process_one_packet, h1, if_pos hone]
        have hz : (process_one_packet c p p.length).psPackets = 0 := by
          simp only [process_one_packet, h1, if_pos hone]
          try exact hone
        refine ⟨?_, ?_, ?_⟩
        · simp only [run_trace, h1]
          rfl
        · simp only [run_trace]
          exact hdone
        · simp only [run_trace]
          exact hz
      · have hlen : 1 ≤ ps.length := by
          cases ps with
          | nil => exact absurd rfl hps
          | cons a b => simp
        have hne : ¬ (c.psPackets - 1 = 0) := by omega
        have hstate : (process_one_packet c p p.length).state = .prepare := by
          simp only [process_one_packet, h1, if_neg hne]
          try exact h1
        have hcount : (process_one_packet c p p.length).psPackets
            = c.psPackets - 1 := by
          simp only [process_one_packet, h1, if_neg hne]
        obtain ⟨ihA, ihB, ihC⟩ := ih (process_one_packet c p p.length) hstate
          (by rw [hcount]; omega) (by rw [hcount]; omega)
        refine ⟨?_, ?_, ?_⟩
        · simp only [run_trace, List.length_cons, List.replicate_succ]
          rw [h1, ihA]
        · simp only [run_trace]
          exact ihB
        · simp only [run_trace]
          exact ihC

/-- Witness for C5 at a concrete prepare response (2 columns, 1
parameter) and a concrete countdown from 5. -/
theorem C5_stmt_prepare_witness :
    (Conn.state { state := .prepare, psPackets := 2 } = .prepare ∧
      ([[1], [2]] : List (List Nat)).length
        = Conn.psPackets { state := .prepare, psPackets := 2 } ∧
      1 ≤ Conn.psPackets { state := .prepare, psPackets := 2 }) ∧
    (run_trace { state := .prepare, psPackets := 2 } [[1], [2]]).2.state = .done :=
  ⟨⟨rfl, rfl, by decide⟩,
    (C5_stmt_prepare.2 { state := .prepare, psPackets := 2 } [[1], [2]]
      rfl rfl (by decide)).2.1⟩

theorem process_start_ok_route (c : Conn) (payload : List Nat)
    (h1 : c.state = .start) (hb : c.command ≠ MXS_COM_BINLOG_DUMP)
    (hs : c.command ≠ MXS_COM_STATISTICS) (hf : c.command ≠ MXS_COM_FIELD_LIST)
    (hp : c.command ≠ MXS_COM_STMT_PREPARE)
    (hOK : payload.headD 0 = MYSQL_REPLY_OK) :
    process_one_packet c payload payload.length
      = process_ok_packet { c with isOk := true } payload := by
  simp only [process_one_packet, h1, process_reply_start, if_neg hb, if_neg hs,
    if_neg hf, process_result_start, hOK, eq_self_iff_true, if_true, if_neg hp]

theorem process_ok_packet_state (c : Conn) (payload : List Nat) :
    (process_ok_packet c payload).state
      = (if Nat.land (readU16 (skip_encoded_int (skip_encoded_int (payload.drop 1))))
            SERVER_MORE_RESULTS_EXIST = 0
         then .done else c.state) := by
  simp only [process_ok_packet]
  by_cases hl : Nat.land (readU16 (skip_encoded_int (skip_encoded_int (payload.drop 1))))
      SERVER_MORE_RESULTS_EXIST = 0
  · simp only [if_pos hl]
    split <;> rfl
  · simp only [if_neg hl]
    split <;> rfl

theorem process_ok_packet_command (c : Conn) (payload : List Nat) :
    (process_ok_packet c payload).command = c.command := by
  simp only [process_ok_packet]
  split_ifs <;> rfl

theorem okStatus_mkOkPayload (st : Nat) (h : st < 256 ^ 2) :
    readU16 (skip_encoded_int (skip_encoded_int ((mkOkPayload st).drop 1))) = st := by
  have e0 : (mkOkPayload st).drop 1 = 0 :: 0 :: (leBytes 2 st ++ [0, 0]) := rfl
  have e1 : skip_encoded_int (0 :: 0 :: (leBytes 2 st ++ [0, 0]))
      = 0 :: (leBytes 2 st ++ [0, 0]) := by
    simp [skip_encoded_int]
  have e2 : skip_encoded_int (0 :: (leBytes 2 st ++ [0, 0]))
      = leBytes 2 st ++ [0, 0] := by
    simp [skip_encoded_int]
  rw [e0, e1, e2, readU16_leBytes2 st _ h]

/-- Claim C1 counterexample: under a COM_FIELD_LIST command, a packet
whose first payload byte is 0x00 with MORE_RESULTS_EXIST clear is
processed in state Start but moves to RSetRows, not Done, although the
claim (which excludes only COM_STMT_PREPARE) demands Done. -/
theorem C1_counterexample :
    Conn.command { state := .start, command := MXS_COM_FIELD_LIST }
      ≠ MXS_COM_STMT_PREPARE ∧
    (mkOkPayload 0).headD 0 = 0x00 ∧
    Nat.land (readU16 (skip_encoded_int (skip_encoded_int ((mkOkPayload 0).drop 1))))
      SERVER_MORE_RESULTS_EXIST = 0 ∧
    (process_one_packet { state := .start, command := MXS_COM_FIELD_LIST }
        (mkOkPayload 0) (mkOkPayload 0).length).state ≠ .done := by
  refine ⟨by decide, by decide, by decide, by decide⟩

/-- Claim C1 (amended to also exclude the specially handled commands
COM_FIELD_LIST, COM_STATISTICS and COM_BINLOG_DUMP): an OK packet
processed in state Start moves to Done exactly when
MORE_RESULTS_EXIST is clear in its status field, and a chain of `k` OK
packets with MORE_RESULTS_EXIST set on the first `k-1` of them is
processed in state Start all `k` times before the machine reaches
Done. -/
theorem C1_ok_transitions :
    (∀ (c : Conn) (payload : List Nat),
      c.state = .start → c.command ≠ MXS_COM_STMT_PREPARE →
      c.command ≠ MXS_COM_FIELD_LIST → c.command ≠ MXS_COM_STATISTICS →
      c.command ≠ MXS_COM_BINLOG_DUMP → payload.headD 0 = MYSQL_REPLY_OK →
      ((process_one_packet c payload payload.length).state = .done ↔
        Nat.land (readU16 (skip_encoded_int (skip_encoded_int (payload.drop 1))))
          SERVER_MORE_RESULTS_EXIST = 0)) ∧
    (∀ (c : Conn) (front : List Nat) (last : Nat),
      c.state = .start → c.command ≠ MXS_COM_STMT_PREPARE →
      c.command ≠ MXS_COM_FIELD_LIST → c.command ≠ MXS_COM_STATISTICS →
      c.command ≠ MXS_COM_BINLOG_DUMP →
      (∀ s ∈ front, s < 256 ^ 2 ∧ Nat.land s SERVER_MORE_RESULTS_EXIST ≠ 0) →
      last < 256 ^ 2 → Nat.land last SERVER_MORE_RESULTS_EXIST = 0 →
      (run_trace c ((front ++ [last]).map mkOkPayload)).1
        = List.replicate (front ++ [last]).length ReplyState.start ∧
      (run_trace c ((front ++ [last]).map mkOkPayload)).2.state = .done) := by
  have hA : ∀ (c : Conn) (payload : List Nat),
      c.state = .start → c.command ≠ MXS_COM_STMT_PREPARE →
      c.command ≠ MXS_COM_FIELD_LIST → c.command ≠ MXS_COM_STATISTICS →
      c.command ≠ MXS_COM_BINLOG_DUMP → payload.headD 0 = MYSQL_REPLY_OK →
      (process_one_packet c payload payload.length).state
        = (if Nat.land (readU16 (skip_encoded_int (skip_encoded_int (payload.drop 1))))
              SERVER_MORE_RESULTS_EXIST = 0
           then .done else .start) := by
    intro c payload h1 hp hf hs hb hOK
    rw [process_start_ok_route c payload h1 hb hs hf hp hOK,
      process_ok_packet_state]
    split
    · rfl
    · exact h1
  constructor
  · intro c payload h1 hp hf hs hb hOK
    rw [hA c payload h1 hp hf hs hb hOK]
    by_cases hl : Nat.land (readU16 (skip_encoded_int (skip_encoded_int (payload.drop 1))))
        SERVER_MORE_RESULTS_EXIST = 0
    · simp [hl]
    · simp [hl]
  · intro c front last
    induction front generalizing c with
    | nil =>
      intro h1 hp hf hs hb hfront hlast hclear
      have hOK : (mkOkPayload last).headD 0 = MYSQL_REPLY_OK := rfl
      have hstep := hA c (mkOkPayload last) h1 hp hf hs hb hOK
      rw [okStatus_mkOkPayload last hlast, if_pos hclear] at hstep
      simp only [List.nil_append, List.map_cons, List.map_nil, run_trace,
        List.length_cons, List.length_nil]
      exact ⟨by rw [h1]; rfl, hstep⟩
    | cons s front ih =>
      intro h1 hp hf hs hb hfront hlast hclear
      have hOK : (mkOkPayload s).headD 0 = MYSQL_REPLY_OK := rfl
      have hset := hfront s (List.mem_cons_self s front)
      have hstep := hA c (mkOkPayload s) h1 hp hf hs hb hOK
      rw [okStatus_mkOkPayload s hset.1, if_neg hset.2] at hstep
      have hroute := process_start_ok_route c (mkOkPayload s) h1 hb hs hf hp hOK
      have hcmd : (process_one_packet c (mkOkPayload s) (mkOkPayload s).length).command
          = c.command := by
        rw [hroute, process_ok_packet_command]
      obtain ⟨ihA, ihB⟩ := ih (process_one_packet c (mkOkPayload s) (mkOkPayload s).length)
        hstep (by rw [hcmd]; exact hp) (by rw [hcmd]; exact hf)
        (by rw [hcmd]; exact hs) (by rw [hcmd]; exact hb)
        (fun x hx => hfront x (List.mem_cons_of_mem s hx)) hlast hclear
      rw [List.cons_append]
      simp only [List.map_cons, run_trace, List.length_cons]
      refine ⟨?_, ihB⟩
      rw [List.replicate_succ, h1]
      exact congrArg (ReplyState.start :: ·) ihA

/-- Witness for C1: a two-OK chain (statuses 8 then 0) passes through
Start twice and ends Done. -/
theorem C1_ok_transitions_witness :
    (Conn.state { state := .start, command := 3 } = .start ∧
      (8 : Nat) < 256 ^ 2 ∧ Nat.land 8 SERVER_MORE_RESULTS_EXIST ≠ 0 ∧
      (0 : Nat) < 256 ^ 2 ∧ Nat.land 0 SERVER_MORE_RESULTS_EXIST = 0) ∧
    (run_trace { state := .start, command := 3 } (([8, 0] : List Nat).map mkOkPayload)).1
      = [ReplyState.start, ReplyState.start] ∧
    (run_trace { state := .start, command := 3 } (([8, 0] : List Nat).map mkOkPayload)).2.state
      = .done := by
  have h := C1_ok_transitions.2 { state := .start, command := 3 } [8] 0
    rfl (by decide) (by decide) (by decide) (by decide)
    (by intro s hs; simp at hs; subst hs; exact ⟨by decide, by decide⟩)
    (by decide) (by decide)
  exact ⟨⟨rfl, by decide, by decide, by decide, by decide⟩, h.1, h.2⟩

theorem calculate_hash_length (scramble passwd : List Nat) :
    (mxs_mysql_calculate_hash scramble passwd).length = 20 := by
  simp [mxs_mysql_calculate_hash, gw_str_xor, List.length_zipWith, padTo_length]

/-- Claim C3 counterexample: the scrambled-password packet sent in
response to an AuthSwitchRequest during COM_CHANGE_USER carries
sequence byte 0x02 (the source writes `data[3] = 2`), not 0x03 as the
claim states. -/
theorem C3_counterexample :
    (com_change_user_auth_switch 1 c3_reply c3_token).isSome = true ∧
    ((com_change_user_auth_switch 1 c3_reply c3_token).getD (0, [], [])).2.2.getD 3 0
      = 2 := by
  refine ⟨by decide, by decide⟩

/-- Claim C3 (amended: the sequence byte of the response packet is 0x02,
the third packet of the exchange, not 0x03): when an AuthSwitchRequest
to mysql_native_password answers a COM_CHANGE_USER, the engine copies
the 20-byte scramble that follows the plugin name, sends one response
packet whose payload is exactly the 20-byte scrambled password and
whose sequence byte is 0x02, and leaves `ignore_replies` at its
previous positive value so the next server reply is still consumed
internally. -/
theorem C3_auth_switch_response (ign : Nat) (reply authToken : List Nat)
    (h1 : 1 ≤ ign) (h2 : auth_change_requested reply = true)
    (h3 : (reply.drop 5).takeWhile (fun b => b ≠ 0) = DEFAULT_MYSQL_AUTH_PLUGIN)
    (h4 : 47 ≤ reply.length) :
    com_change_user_auth_switch ign reply authToken
      = some (ign,
          (reply.drop (5 + DEFAULT_MYSQL_AUTH_PLUGIN.length + 1)).take 20,
          send_mysql_native_password_response
            ((reply.drop (5 + DEFAULT_MYSQL_AUTH_PLUGIN.length + 1)).take 20)
            authToken) ∧
    ((reply.drop (5 + DEFAULT_MYSQL_AUTH_PLUGIN.length + 1)).take 20).length = 20 ∧
    ((send_mysql_native_password_response
        ((reply.drop (5 + DEFAULT_MYSQL_AUTH_PLUGIN.length + 1)).take 20)
        authToken).drop 4)
      = mxs_mysql_calculate_hash
          ((reply.drop (5 + DEFAULT_MYSQL_AUTH_PLUGIN.length + 1)).take 20)
          (if authToken.isEmpty then List.replicate 20 0 else authToken) ∧
    ((send_mysql_native_password_response
        ((reply.drop (5 + DEFAULT_MYSQL_AUTH_PLUGIN.length + 1)).take 20)
        authToken).drop 4).length = 20 ∧
    (send_mysql_native_password_response
        ((reply.drop (5 + DEFAULT_MYSQL_AUTH_PLUGIN.length + 1)).take 20)
        authToken).getD 3 0 = 2 ∧
    1 ≤ ign := by
  refine ⟨?_, ?_, ?_, ?_, ?_, h1⟩
  · simp only [com_change_user_auth_switch, handle_auth_change_response,
      if_pos h3]
    rw [if_pos ⟨h1, h2⟩]
    simp [Nat.sub_add_cancel h1]
  · have hlen : DEFAULT_MYSQL_AUTH_PLUGIN.length = 21 := rfl
    simp only [List.length_take, List.length_drop, hlen]
    omega
  · simp only [send_mysql_native_password_response]
    exact drop_append_exact _ _ _ rfl
  · simp only [send_mysql_native_password_response]
    rw [drop_append_exact ([20, 0, 0, 2] : List Nat) _ 4 rfl, calculate_hash_length]
  · rfl

/-- Witness for C3 at the concrete AuthSwitchRequest `c3_reply`. -/
theorem C3_auth_switch_response_witness :
    (1 ≤ (1 : Nat) ∧ auth_change_requested c3_reply = true ∧
      (c3_reply.drop 5).takeWhile (fun b => b ≠ 0) = DEFAULT_MYSQL_AUTH_PLUGIN ∧
      47 ≤ c3_reply.length) ∧
    (send_mysql_native_password_response
      ((c3_reply.drop (5 + DEFAULT_MYSQL_AUTH_PLUGIN.length + 1)).take 20)
      c3_token).getD 3 0 = 2 :=
  ⟨⟨le_rfl, by decide, by decide, by decide⟩,
    (C3_auth_switch_response 1 c3_reply c3_token le_rfl (by decide) (by decide)
      (by decide)).2.2.2.2.1⟩

theorem put_lenenc_length_le (n : Nat) : (put_lenenc n).length ≤ 9 := by
  simp only [put_lenenc]
  split_ifs <;> simp [leBytes_length]

theorem track_entries_encode (es : List TrackEntry) (hwf : ∀ e ∈ es, entryWF e) :
    ∀ vars, track_entries vars (encodeEntries es) = vars ++ expectedVars es := by
  have hval : (256 : Nat) ^ 8 = 18446744073709551616 := by norm_num
  have hval4 : (256 : Nat) ^ 4 = 4294967296 := by norm_num
  induction es with
  | nil =>
    intro vars
    simp [encodeEntries, track_entries, expectedVars]
  | cons e es ih =>
    intro vars
    have hwfe := hwf e (List.mem_cons_self e es)
    have ihs := ih (fun x hx => hwf x (List.mem_cons_of_mem e hx))
    have henc : encodeEntries (e :: es) = encodeEntry e ++ encodeEntries es := by
      simp [encodeEntries]
    rw [henc]
    match e with
    | .sysVar n v =>
      obtain ⟨hn, hv⟩ := hwfe
      have hn8 : n.length < 256 ^ 8 := lt_of_lt_of_le hn (by norm_num)
      have hv8 : v.length < 256 ^ 8 := lt_of_lt_of_le hv (by norm_num)
      have hbody : (put_lenenc_str n).length + (put_lenenc_str v).length < 256 ^ 8 := by
        have h1 := put_lenenc_length_le n.length
        have h2 := put_lenenc_length_le v.length
        simp only [put_lenenc_str, List.length_append]
        rw [hval]; rw [hval4] at hn hv; omega
      simp only [encodeEntry, List.cons_append, List.append_assoc]
      rw [track_entries]
      simp only [SESSION_TRACK_SYSTEM_VARIABLES, SESSION_TRACK_STATE_CHANGE,
        SESSION_TRACK_SCHEMA, SESSION_TRACK_GTIDS,
        SESSION_TRACK_TRANSACTION_CHARACTERISTICS]
      norm_num
      rw [get_encoded_int_put _ _ hbody]
      rw [get_encoded_str_put n _ hn8]
      rw [get_encoded_str_put v _ hv8]
      rw [ihs]
      simp [expectedVars]
    | .gtids esp g =>
      obtain ⟨hesp, hg⟩ := hwfe
      have hesp8 : esp < 256 ^ 8 := lt_of_lt_of_le hesp (by norm_num)
      have hg8 : g.length < 256 ^ 8 := lt_of_lt_of_le hg (by norm_num)
      have hbody : (put_lenenc esp).length + (put_lenenc_str g).length < 256 ^ 8 := by
        have h1 := put_lenenc_length_le esp
        have h2 := put_lenenc_length_le g.length
        simp only [put_lenenc_str, List.length_append]
        rw [hval]; rw [hval4] at hg; omega
      simp only [encodeEntry, List.cons_append, List.append_assoc]
      rw [track_entries]
      simp only [SESSION_TRACK_GTIDS, SESSION_TRACK_STATE_CHANGE,
        SESSION_TRACK_SCHEMA]
      norm_num
      rw [get_encoded_int_put _ _ hbody]
      rw [skip_encoded_int_put esp _ hesp8]
      rw [get_encoded_str_put g _ hg8]
      rw [ihs]
      simp [expectedVars]
    | .unknown t body =>
      obtain ⟨ht, ht2, hb⟩ := hwfe
      have hb8 : body.length < 256 ^ 8 := lt_of_lt_of_le hb (by norm_num)
      have hne0 : t ≠ SESSION_TRACK_SYSTEM_VARIABLES := by
        simp only [SESSION_TRACK_SYSTEM_VARIABLES]; omega
      have hne1 : t ≠ SESSION_TRACK_SCHEMA := by
        simp only [SESSION_TRACK_SCHEMA]; omega
      have hne2 : t ≠ SESSION_TRACK_STATE_CHANGE := by
        simp only [SESSION_TRACK_STATE_CHANGE]; omega
      have hne3 : t ≠ SESSION_TRACK_GTIDS := by
        simp only [SESSION_TRACK_GTIDS]; omega
      have hne4 : t ≠ SESSION_TRACK_TRANSACTION_CHARACTERISTICS := by
        simp only [SESSION_TRACK_TRANSACTION_CHARACTERISTICS]; omega
      have hne5 : t ≠ SESSION_TRACK_TRANSACTION_TYPE := by
        simp only [SESSION_TRACK_TRANSACTION_TYPE]; omega
      simp only [encodeEntry, List.cons_append, List.append_assoc]
      rw [track_entries]
      rw [if_neg hne2, if_neg hne1, if_neg hne3, if_neg hne4, if_neg hne0,
        if_neg hne5]
      rw [get_encoded_int_put _ _ hb8]
      rw [drop_append_exact body _ _ rfl]
      rw [ihs]
      simp [expectedVars]

/-- Claim C8: after processing an OK packet whose status has
SESSION_STATE_CHANGED (with tracking negotiated and requested), the
tracked-variable list has gained exactly the (name, value) pairs of the
SYSTEM_VARIABLES entries of the tracking block, a GTIDS entry sets
`last_gtid` to its length-encoded string value, and entries of unknown
type are skipped by their total size without corrupting the entries
after them. -/
theorem C8_session_track (c : Conn) (ar li status warn : Nat)
    (info : List Nat) (es : List TrackEntry)
    (h1 : c.state = .start) (hp : c.command ≠ MXS_COM_STMT_PREPARE)
    (hf : c.command ≠ MXS_COM_FIELD_LIST) (hs : c.command ≠ MXS_COM_STATISTICS)
    (hb : c.command ≠ MXS_COM_BINLOG_DUMP)
    (htr : c.trackState = true)
    (har : ar < 256 ^ 8) (hli : li < 256 ^ 8) (hst : status < 256 ^ 2)
    (hland : Nat.land status SERVER_SESSION_STATE_CHANGED ≠ 0)
    (hinfo : info.length < 256 ^ 8)
    (htot : (encodeEntries es).length < 256 ^ 8)
    (hwf : ∀ e ∈ es, entryWF e) :
    (process_one_packet c
        (0 :: (put_lenenc ar ++ (put_lenenc li ++ (leBytes 2 status
          ++ (leBytes 2 warn ++ (put_lenenc_str info
          ++ (put_lenenc (encodeEntries es).length ++ encodeEntries es)))))))
        (0 :: (put_lenenc ar ++ (put_lenenc li ++ (leBytes 2 status
          ++ (leBytes 2 warn ++ (put_lenenc_str info
          ++ (put_lenenc (encodeEntries es).length ++ encodeEntries es))))))).length
      ).trackedVars
      = c.trackedVars ++ expectedVars es := by
  have hroute := process_start_ok_route c
    (0 :: (put_lenenc ar ++ (put_lenenc li ++ (leBytes 2 status
      ++ (leBytes 2 warn ++ (put_lenenc_str info
      ++ (put_lenenc (encodeEntries es).length ++ encodeEntries es)))))))
    h1 hb hs hf hp rfl
  rw [hroute]
  simp only [process_ok_packet]
  have e0 : (0 :: (put_lenenc ar ++ (put_lenenc li ++ (leBytes 2 status
      ++ (leBytes 2 warn ++ (put_lenenc_str info
      ++ (put_lenenc (encodeEntries es).length ++ encodeEntries es))))))).drop 1
      = put_lenenc ar ++ (put_lenenc li ++ (leBytes 2 status
        ++ (leBytes 2 warn ++ (put_lenenc_str info
        ++ (put_lenenc (encodeEntries es).length ++ encodeEntries es))))) := rfl
  rw [e0]
  rw [skip_encoded_int_put ar _ har]
  rw [skip_encoded_int_put li _ hli]
  rw [readU16_leBytes2 status _ hst]
  rw [drop_append_exact _ _ _ (leBytes_length 2 status)]
  rw [drop_append_exact _ _ _ (leBytes_length 2 warn)]
  rw [if_pos (⟨htr, hland⟩ :
    Conn.trackState { c with isOk := true } = true ∧
      Nat.land status SERVER_SESSION_STATE_CHANGED ≠ 0)]
  rw [skip_encoded_str_put info _ hinfo]
  rw [get_encoded_int_put _ _ htot]
  have hrec := track_entries_encode es hwf
    (Conn.trackedVars { c with isOk := true })
  · by_cases hmore : Nat.land status SERVER_MORE_RESULTS_EXIST = 0
    · simp only [if_pos hmore]
      exact hrec
    · simp only [if_neg hmore]
      exact hrec

/-- Witness for C8: a block with a system variable, an unknown entry
and a GTIDS entry extracts exactly the pair and the GTID, with the
unknown entry skipped. -/
theorem C8_session_track_witness :
    (Conn.state { state := .start, command := 3, trackState := true } = .start ∧
      Nat.land 16384 SERVER_SESSION_STATE_CHANGED ≠ 0 ∧
      (∀ e ∈ ([.sysVar [97] [98], .unknown 77 [1, 2, 3],
          .gtids 0 [48, 45, 49]] : List TrackEntry), entryWF e)) ∧
    (process_one_packet { state := .start, command := 3, trackState := true }
        (0 :: (put_lenenc 0 ++ (put_lenenc 0 ++ (leBytes 2 16384
          ++ (leBytes 2 0 ++ (put_lenenc_str []
          ++ (put_lenenc (encodeEntries [.sysVar [97] [98], .unknown 77 [1, 2, 3],
                .gtids 0 [48, 45, 49]]).length
            ++ encodeEntries [.sysVar [97] [98], .unknown 77 [1, 2, 3],
                .gtids 0 [48, 45, 49]])))))))
        (0 :: (put_lenenc 0 ++ (put_lenenc 0 ++ (leBytes 2 16384
          ++ (leBytes 2 0 ++ (put_lenenc_str []
          ++ (put_lenenc (encodeEntries [.sysVar [97] [98], .unknown 77 [1, 2, 3],
                .gtids 0 [48, 45, 49]]).length
            ++ encodeEntries [.sysVar [97] [98], .unknown 77 [1, 2, 3],
                .gtids 0 [48, 45, 49]]))))))).length
      ).trackedVars
      = [([97], [98]), (MXS_LAST_GTID, [48, 45, 49])] := by
  have hwf3 : ∀ e ∈ ([.sysVar [97] [98], .unknown 77 [1, 2, 3],
      .gtids 0 [48, 45, 49]] : List TrackEntry), entryWF e := by
    intro e he
    simp only [List.mem_cons, List.not_mem_nil, or_false] at he
    rcases he with rfl | rfl | rfl <;> norm_num [entryWF]
  refine ⟨⟨rfl, by decide, hwf3⟩, ?_⟩
  have h := C8_session_track { state := .start, command := 3, trackState := true }
    0 0 16384 0 [] [.sysVar [97] [98], .unknown 77 [1, 2, 3], .gtids 0 [48, 45, 49]]
    rfl (by decide) (by decide) (by decide) (by decide) rfl
    (by norm_num) (by norm_num) (by norm_num) (by decide) (by norm_num)
    (by decide) hwf3
  rw [h]
  rfl

theorem take_append_le (l r : List Nat) (n : Nat) (h : n ≤ l.length) :
    (l ++ r).take n = l.take n := by
  induction l generalizing n with
  | nil =>
    simp only [List.length_nil, Nat.le_zero] at h
    simp [h]
  | cons a l ih =>
    cases n with
    | zero => rfl
    | succ n =>
      simp only [List.cons_append, List.take_succ_cons]
      rw [ih]
      simpa using h

theorem drop_append_le (l r : List Nat) (n : Nat) (h : n ≤ l.length) :
    (l ++ r).drop n = l.drop n ++ r := by
  induction l generalizing n with
  | nil =>
    simp only [List.length_nil, Nat.le_zero] at h
    simp [h]
  | cons a l ih =>
    cases n with
    | zero => rfl
    | succ n =>
      simp only [List.cons_append, List.drop_succ_cons]
      rw [ih]
      simpa using h

theorem process_packets_of_none (c : Conn) (buf : List Nat)
    (h : splitPacket buf = none) : process_packets c buf = (c, [], buf) := by
  rw [process_packets]
  split
  · rfl
  · rename_i heq
    rw [h] at heq
    cases heq

theorem process_packets_of_some (c : Conn) (buf : List Nat)
    (f : Nat × List Nat × List Nat) (rest : List Nat)
    (h : splitPacket buf = some (f, rest)) :
    process_packets c buf =
      (let c1 : Conn := { c with skipNext := f.1 = GW_MYSQL_MAX_PACKET_LEN }
       let c2 := if c.skipNext then c1 else process_one_packet c1 f.2.2 f.1
       let r := process_packets c2 rest
       (r.1, f.2.1 :: r.2.1, r.2.2)) := by
  rw [process_packets]
  split
  · rename_i heq
    rw [h] at heq
    cases heq
  · rename_i f' rest' heq
    rw [h] at heq
    cases heq
    rfl

theorem splitPacket_append (buf extra : List Nat)
    (f : Nat × List Nat × List Nat) (rest : List Nat)
    (h : splitPacket buf = some (f, rest)) :
    splitPacket (buf ++ extra) = some (f, rest ++ extra) := by
  match buf with
  | [] => simp [splitPacket] at h
  | [b0] => simp [splitPacket] at h
  | [b0, b1] => simp [splitPacket] at h
  | [b0, b1, b2] => simp [splitPacket] at h
  | b0 :: b1 :: b2 :: seq :: r =>
    simp only [splitPacket] at h
    split at h
    · rename_i hle
      cases h
      simp only [List.cons_append, splitPacket]
      rw [if_pos (by simp only [List.length_append]; omega)]
      rw [take_append_le r extra _ hle, drop_append_le r extra _ hle]
    · cases h

theorem process_packets_residual (c : Conn) (buf : List Nat) :
    splitPacket (process_packets c buf).2.2 = none := by
  have H : ∀ (n : Nat) (c : Conn) (buf : List Nat), buf.length ≤ n →
      splitPacket (process_packets c buf).2.2 = none := by
    intro n
    induction n with
    | zero =>
      intro c buf hle
      match hsp : splitPacket buf with
      | none =>
        rw [process_packets_of_none c buf hsp]
        exact hsp
      | some (f, rest) =>
        have hlt := splitPacket_rest_lt buf f rest hsp
        omega
    | succ n ih =>
      intro c buf hle
      match hsp : splitPacket buf with
      | none =>
        rw [process_packets_of_none c buf hsp]
        exact hsp
      | some (f, rest) =>
        have hlt := splitPacket_rest_lt buf f rest hsp
        rw [process_packets_of_some c buf f rest hsp]
        exact ih _ rest (by omega)
  exact H buf.length c buf le_rfl

theorem process_packets_append (c : Conn) (buf extra : List Nat) :
    process_packets c (buf ++ extra) =
      ((process_packets (process_packets c buf).1
          ((process_packets c buf).2.2 ++ extra)).1,
       (process_packets c buf).2.1
         ++ (process_packets (process_packets c buf).1
              ((process_packets c buf).2.2 ++ extra)).2.1,
       (process_packets (process_packets c buf).1
          ((process_packets c buf).2.2 ++ extra)).2.2) := by
  have H : ∀ (n : Nat) (c : Conn) (buf : List Nat), buf.length ≤ n →
      process_packets c (buf ++ extra) =
        ((process_packets (process_packets c buf).1
            ((process_packets c buf).2.2 ++ extra)).1,
         (process_packets c buf).2.1
           ++ (process_packets (process_packets c buf).1
                ((process_packets c buf).2.2 ++ extra)).2.1,
         (process_packets (process_packets c buf).1
            ((process_packets c buf).2.2 ++ extra)).2.2) := by
    intro n
    induction n with
    | zero =>
      intro c buf hle
      match hsp : splitPacket buf with
      | none =>
        rw [process_packets_of_none c buf hsp]
        simp
      | some (f, rest) =>
        have hlt := splitPacket_rest_lt buf f rest hsp
        omega
    | succ n ih =>
      intro c buf hle
      match hsp : splitPacket buf with
      | none =>
        rw [process_packets_of_none c buf hsp]
        simp
      | some (f, rest) =>
        have hlt := splitPacket_rest_lt buf f rest hsp
        have hsp2 := splitPacket_append buf extra f rest hsp
        rw [process_packets_of_some c buf f rest hsp,
          process_packets_of_some c (buf ++ extra) f (rest ++ extra) hsp2]
        simp only
        rw [ih _ rest (by omega)]
        simp
  exact H buf.length c buf le_rfl

/-- Claim C6: feeding a byte stream to the packet processor in chunks,
carrying the residual bytes and the machine state between calls,
consumes the same sequence of whole packets, leaves the same residual
and produces the same state as feeding the whole stream at once; a
buffer that ends inside a 4-byte header or inside a payload consumes
nothing. -/
theorem C6_incremental_framing :
    (∀ (c : Conn) (chunks : List (List Nat)),
      feed_chunks c chunks = process_packets c chunks.flatten) ∧
    (∀ (c : Conn) (buf : List Nat), splitPacket buf = none →
      process_packets c buf = (c, [], buf)) := by
  constructor
  · have hgo : ∀ (chunks : List (List Nat)) (c : Conn)
        (pkts : List (List Nat)) (res : List Nat),
        splitPacket res = none →
        chunks.foldl
          (fun acc chunk =>
            let r := process_packets acc.1 (acc.2.2 ++ chunk)
            (r.1, acc.2.1 ++ r.2.1, r.2.2))
          (c, pkts, res)
        = ((process_packets c (res ++ chunks.flatten)).1,
           pkts ++ (process_packets c (res ++ chunks.flatten)).2.1,
           (process_packets c (res ++ chunks.flatten)).2.2) := by
      intro chunks
      induction chunks with
      | nil =>
        intro c pkts res hres
        simp only [List.foldl_nil, List.flatten_nil, List.append_nil]
        rw [process_packets_of_none c res hres]
        simp
      | cons chunk chunks ih =>
        intro c pkts res hres
        simp only [List.foldl_cons, List.flatten_cons]
        rw [ih _ _ _ (process_packets_residual c (res ++ chunk))]
        rw [← List.append_assoc res chunk chunks.flatten]
        rw [process_packets_append c (res ++ chunk) chunks.flatten]
        simp [List.append_assoc]
    intro c chunks
    have h := hgo chunks c [] [] rfl
    simp only [List.nil_append] at h
    rw [feed_chunks, h]
  · intro c buf h
    exact process_packets_of_none c buf h

/-- Witness for C6: a buffer holding only a truncated header consumes
nothing. -/
theorem C6_incremental_framing_witness :
    splitPacket [7, 0] = none ∧
    process_packets { state := .start, command := 3 } [7, 0]
      = ({ state := .start, command := 3 }, [], [7, 0]) :=
  ⟨rfl, C6_incremental_framing.2 { state := .start, command := 3 } [7, 0] rfl⟩

end MariaDB
